import Mathlib

/-
  Verification development for the oxidepm process manager.

  The definitions below are a shallow embedding of the Rust sources:
    - crates/oxidepm-core/src/types.rs      (AppSpec, AppStatus, Selector, validate_app_name)
    - crates/oxidepm-db/src/apps.rs         (apps repository)
    - crates/oxidepmd/src/supervisor.rs     (Supervisor: start/stop/delete/reload)
    - crates/oxidepmd/src/handlers.rs       (RequestHandler)
    - crates/oxidepm-logs/src/writer.rs     (LogWriter rotation)
    - crates/oxidepm-ipc/src/server.rs      (read_request, MAX_MESSAGE_SIZE)

  Machine integers are modelled as Nat with explicit reduction mod 2^16 where
  u16 arithmetic can wrap.  Async timing (sleeps, deadlines) is abstracted:
  oracles in SupCtx record the outcomes of awaiting a child or polling a
  health probe.  HashMap-valued env is modelled as an association list with
  set semantics, since only key lookup is observable.
-/

namespace OxidePM

/-- Application runtime mode (types.rs, enum AppMode). -/
inductive AppMode where
  | cmd | node | npm | pnpm | yarn | cargo | rust
  deriving DecidableEq, Repr

/-- Application status (types.rs, enum AppStatus). -/
inductive AppStatus where
  | starting | running | stopping | stopped | errored | building
  deriving DecidableEq, Repr

/-- types.rs AppStatus::is_running: matches Running | Starting | Building. -/
def AppStatus.is_running : AppStatus → Bool
  | .running => true
  | .starting => true
  | .building => true
  | _ => false

/-- Hook event types (types.rs, enum HookEvent). -/
inductive HookEvent where
  | start | stop | restart | crash | error
  deriving DecidableEq, Repr

/-- Event hook configuration (types.rs, struct Hooks). -/
structure Hooks where
  on_start : Option String := none
  on_stop : Option String := none
  on_restart : Option String := none
  on_crash : Option String := none
  on_error : Option String := none
  deriving DecidableEq, Repr

/-- types.rs Hooks::get. -/
def Hooks.get (h : Hooks) : HookEvent → Option String
  | .start => h.on_start
  | .stop => h.on_stop
  | .restart => h.on_restart
  | .crash => h.on_crash
  | .error => h.on_error

/-- Health check configuration (types.rs, struct HealthCheck).
    Only presence and the configured parameters matter to the supervisor. -/
structure HealthCheck where
  http_url : Option String := none
  script : Option String := none
  expected_status : List Nat := [200]
  interval_secs : Nat := 30
  timeout_secs : Nat := 5
  retries : Nat := 3
  deriving DecidableEq, Repr

/-- Restart policy (types.rs, struct RestartPolicy), defaults from constants.rs. -/
structure RestartPolicy where
  auto_restart : Bool := true
  max_restarts : Nat := 15
  restart_delay_ms : Nat := 500
  crash_window_secs : Nat := 60
  deriving DecidableEq, Repr

/-- Application specification (types.rs, struct AppSpec).  The env HashMap is
    modelled as an association list with set semantics; cwd as a string;
    created_at (a wall-clock timestamp) is omitted. -/
structure AppSpec where
  id : Nat
  name : String
  mode : AppMode
  command : String
  args : List String := []
  cwd : String
  env : List (String × String) := []
  watch : Bool := false
  ignore_patterns : List String := []
  restart_policy : RestartPolicy := {}
  kill_timeout_ms : Nat := 3000
  instances : Nat := 1
  instance_id : Option Nat := none
  port : Option Nat := none
  port_range : Option (Nat × Nat) := none
  health_check : Option HealthCheck := none
  max_memory_mb : Option Nat := none
  startup_delay_ms : Option Nat := none
  env_inherit : Bool := false
  hooks : Hooks := {}
  tags : List String := []
  max_uptime_secs : Option Nat := none
  deriving DecidableEq, Repr

/-- HashMap::insert on the association-list model: replace the binding if the
    key is present, append otherwise. -/
def envInsert : List (String × String) → String → String → List (String × String)
  | [], k, v => [(k, v)]
  | (k₀, v₀) :: rest, k, v =>
      if k₀ = k then (k, v) :: rest else (k₀, v₀) :: envInsert rest k v

/-- HashMap::get on the association-list model. -/
def envGet (env : List (String × String)) (k : String) : Option String :=
  (env.find? (fun p => p.1 = k)).map (fun p => p.2)

/-- types.rs AppSpec::for_instance: clone for a cluster instance, setting
    instance_id, the display name, and (when a port was computed) the PORT
    environment variable and the port field. -/
def AppSpec.for_instance (spec : AppSpec) (instance_id : Nat) (port : Option Nat) : AppSpec :=
  let base := { spec with
    instance_id := some instance_id,
    name := spec.name ++ "-" ++ toString instance_id }
  match port with
  | some p => { base with port := some p, env := envInsert base.env "PORT" (toString p) }
  | none => base

/-- types.rs isNameChar: the character class of the app-name regex
    [a-zA-Z0-9_-] (ASCII letters, digits, underscore, hyphen). -/
def isNameChar (c : Char) : Bool :=
  c.isAlpha || c.isDigit || c = '_' || c = '-'

/-- types.rs validate_app_name: non-empty and the anchored regex
    matches, i.e. every character lies in [a-zA-Z0-9_-].  A string is empty
    exactly when its character list is. -/
def validate_app_name (s : String) : Bool :=
  !s.data.isEmpty && s.data.all isNameChar

/-- Selector (types.rs, enum Selector). -/
inductive Selector where
  | all
  | byId (id : Nat)
  | byName (name : String)
  | byTag (tag : String)
  deriving DecidableEq, Repr

/-- Numeric value of a digit list. -/
def digitsVal (l : List Char) : Nat :=
  l.foldl (fun a c => a * 10 + (c.toNat - 48)) 0

/-- Model of Rust str::parse::<u32>: an optional leading plus sign, then a
    non-empty run of ASCII digits, value at most u32::MAX; anything else
    (including overflow) is an error. -/
def parseU32 (s : String) : Option Nat :=
  let ds := match s.data with
    | '+' :: rest => rest
    | l => l
  if ds.isEmpty then none
  else if ds.all Char.isDigit then
    if digitsVal ds < 4294967296 then some (digitsVal ds) else none
  else none

/-- Model of str::eq_ignore_ascii_case: equality after ASCII lowercasing. -/
def eqIgnoreAsciiCase (a b : String) : Bool :=
  a.data.map Char.toLower = b.data.map Char.toLower

/-- types.rs Selector::parse: case-insensitive "all", then a leading at sign,
    then u32 parsing, else a name. -/
def Selector.parse (s : String) : Selector :=
  if eqIgnoreAsciiCase s "all" then Selector.all
  else match s.data with
    | '@' :: tag => Selector.byTag (String.mk tag)
    | _ =>
      match parseU32 s with
      | some id => Selector.byId id
      | none => Selector.byName s

/-- types.rs Display for Selector. -/
def Selector.toString : Selector → String
  | .all => "all"
  | .byId id => ToString.toString id
  | .byName name => name
  | .byTag tag => "@" ++ tag

/-- types.rs Selector::matches. -/
def Selector.matchesSpec (sel : Selector) (spec : AppSpec) : Bool :=
  match sel with
  | .all => true
  | .byId id => spec.id = id
  | .byName name => spec.name = name
  | .byTag tag => spec.tags.contains tag

/-- Error taxonomy (error.rs, enum Error); only the variants the embedded
    operations produce are modelled. -/
inductive Error where
  | appNotFound (what : String)
  | appAlreadyExists (name : String)
  | buildFailed (output : String)
  | processStartFailed (msg : String)
  | ipcError (msg : String)
  | dbError (msg : String)
  | invalidSelector (msg : String)
  | healthCheckFailed
  deriving DecidableEq, Repr

/-- error.rs Display strings (thiserror formats) for the modelled variants. -/
def Error.message : Error → String
  | .appNotFound s => "App not found: " ++ s
  | .appAlreadyExists s => "App already exists: " ++ s
  | .buildFailed s => "Build failed: " ++ s
  | .processStartFailed s => "Process failed to start: " ++ s
  | .ipcError s => "IPC error: " ++ s
  | .dbError s => "Database error: " ++ s
  | .invalidSelector s => "Invalid selector: " ++ s
  | .healthCheckFailed => "Health check failed"

/-- Runtime state of an application (types.rs, struct RunState).  cpu_percent
    (f32) and last_health_check (wall clock) are omitted; timestamps are
    abstract ticks. -/
structure RunState where
  app_id : Nat
  pid : Option Nat := none
  status : AppStatus := .stopped
  restarts : Nat := 0
  uptime_secs : Nat := 0
  memory_bytes : Nat := 0
  last_exit_code : Option Int := none
  started_at : Option Nat := none
  healthy : Bool := false
  health_check_failures : Nat := 0
  port : Option Nat := none
  instance_id : Option Nat := none
  deriving DecidableEq, Repr

/-- types.rs RunState::new: the default (stopped) state for an app id. -/
def RunState.new (app_id : Nat) : RunState := { app_id := app_id }

/-- Supervised process state (supervisor.rs, struct SupervisedProcess).
    The child handle is modelled by its presence; the health monitor by its
    presence. -/
structure SupervisedProcess where
  spec : AppSpec
  state : RunState
  child : Bool
  restart_count : Nat := 0
  started_at : Option Nat := none
  health_monitor : Bool := false
  cluster_instance_ids : List Nat := []
  parent_id : Option Nat := none
  deriving DecidableEq, Repr

/-- The apps relation of the registry (oxidepm-db/src/apps.rs).  Rows keep the
    id and the spec as row_to_app_spec reconstructs it; ids are assigned
    sequentially starting at next_id (SQLite rowids start at 1). -/
structure Db where
  rows : List (Nat × AppSpec)
  next_id : Nat
  deriving DecidableEq, Repr

/-- apps.rs insert + row_to_app_spec round trip: only name, mode, command,
    args, cwd, env, watch, ignore_patterns, restart_policy and
    kill_timeout_ms are persisted; every other field reads back as its
    default (the schema does not persist clustering, ports, health checks,
    limits, hooks or tags). -/
def persistRow (id : Nat) (spec : AppSpec) : AppSpec :=
  { id := id
    name := spec.name
    mode := spec.mode
    command := spec.command
    args := spec.args
    cwd := spec.cwd
    env := spec.env
    watch := spec.watch
    ignore_patterns := spec.ignore_patterns
    restart_policy := spec.restart_policy
    kill_timeout_ms := spec.kill_timeout_ms }

/-- apps.rs AppsRepository::insert: returns the assigned rowid. -/
def Db.insert (db : Db) (spec : AppSpec) : Nat × Db :=
  (db.next_id,
   { rows := db.rows ++ [(db.next_id, persistRow db.next_id spec)],
     next_id := db.next_id + 1 })

/-- apps.rs AppsRepository::get_by_id. -/
def Db.get_by_id (db : Db) (id : Nat) : Option AppSpec :=
  (db.rows.find? (fun r => r.1 = id)).map (fun r => r.2)

/-- apps.rs AppsRepository::get_by_name. -/
def Db.get_by_name (db : Db) (name : String) : Option AppSpec :=
  (db.rows.find? (fun r => r.2.name = name)).map (fun r => r.2)

/-- apps.rs AppsRepository::get_all (ordered by id; insertion order is
    ascending since ids are assigned sequentially). -/
def Db.get_all (db : Db) : List AppSpec :=
  db.rows.map (fun r => r.2)

/-- apps.rs AppsRepository::delete. -/
def Db.deleteRow (db : Db) (id : Nat) : Db :=
  { db with rows := db.rows.filter (fun r => r.1 ≠ id) }

/-- The supervisor state: the registry and the process map
    (supervisor.rs, struct Supervisor: db + processes). -/
structure SupState where
  db : Db
  procs : Nat → Option SupervisedProcess

/-- Insert or replace an entry of the process map. -/
def SupState.insertProc (σ : SupState) (id : Nat) (p : SupervisedProcess) : SupState :=
  { σ with procs := fun k => if k = id then some p else σ.procs k }

/-- Update the entry at an id, if present. -/
def SupState.updateProc (σ : SupState) (id : Nat) (f : SupervisedProcess → SupervisedProcess) : SupState :=
  { σ with procs := fun k => if k = id then (σ.procs k).map f else σ.procs k }

/-- Remove an entry of the process map. -/
def SupState.removeProc (σ : SupState) (id : Nat) : SupState :=
  { σ with procs := fun k => if k = id then none else σ.procs k }

/-- Result of the runner prepare phase (oxidepm-runtime/src/traits.rs,
    struct PrepareResult). -/
structure PrepareResult where
  success : Bool
  output : String
  binary_path : Option String := none
  deriving DecidableEq, Repr

/-- Outcome of awaiting a child within the kill_timeout_ms deadline
    (supervisor.rs stop: Ok(Ok(status)) / Ok(Err) / Err(timeout)). -/
inductive WaitOutcome where
  | exited (code : Option Int)
  | errWait
  | timedOut
  deriving DecidableEq, Repr

/-- Oracles for the external collaborators and for abstracted time:
    the runner (prepare/start), the child wait in stop (keyed by app id),
    and whether the health probe of an app becomes healthy within the 30 s
    reload deadline (keyed by app id). -/
structure SupCtx where
  prepare : AppSpec → PrepareResult
  runStart : AppSpec → Except Error Nat
  wait : Nat → WaitOutcome
  healthBecomes : Nat → Bool
  now : Nat := 0

/-- Observable side effects, in program order. -/
inductive Event where
  | sigterm (pid : Nat)
  | sigkill
  | notifyStarted (name : String) (id : Nat)
  | notifyStopped (name : String) (id : Nat) (code : Option Int)
  | hookRun (ev : HookEvent) (id : Nat) (name : String)
  deriving DecidableEq, Repr

/-- supervisor.rs Supervisor::calculate_instance_port: a port_range start+i
    inside the range wins; otherwise fall through to base port + i; otherwise
    no port.  u16 addition wraps mod 2^16. -/
def Supervisor.calculate_instance_port (spec : AppSpec) (instance_index : Nat) : Option Nat :=
  let fallback :=
    match spec.port with
    | some base => some ((base + instance_index) % 65536)
    | none => none
  match spec.port_range with
  | some (rstart, rend) =>
      let port := (rstart + instance_index) % 65536
      if port ≤ rend then some port else fallback
  | none => fallback

/-- The SupervisedProcess that start_single inserts on success
    (supervisor.rs start_single: status Running, the new pid, the spec's port
    and instance_id, a health monitor iff a health check is configured). -/
def Supervisor.startedProc (ctx : SupCtx) (spec : AppSpec) (pid : Nat) : SupervisedProcess :=
  { spec := spec
    state :=
      { app_id := spec.id
        pid := some pid
        status := .running
        started_at := some ctx.now
        healthy := true
        port := spec.port
        instance_id := spec.instance_id }
    child := true
    started_at := some ctx.now
    health_monitor := spec.health_check.isSome }

/-- The events start_single emits on success: the Started notification and
    the on_start hook when configured. -/
def Supervisor.startEvents (spec : AppSpec) : List Event :=
  [Event.notifyStarted spec.name spec.id] ++
    (if spec.hooks.on_start.isSome then [Event.hookRun .start spec.id spec.name] else [])

/-- supervisor.rs Supervisor::start_single: insert a registry row for cluster
    instances, run prepare (BuildFailed on non-success), start the child,
    insert the Running SupervisedProcess into the map, emit the Started
    notification and the on_start hook.  The startup delay and the spawned
    supervision/health/watch tasks are timing effects outside this model. -/
def Supervisor.start_single (ctx : SupCtx) (σ : SupState) (spec₀ : AppSpec) :
    SupState × Except Error Nat × List Event :=
  let (σ, spec) :=
    if spec₀.instance_id.isSome then
      let (id, db) := σ.db.insert spec₀
      ({ σ with db := db }, { spec₀ with id := id })
    else (σ, spec₀)
  let pr := ctx.prepare spec
  if !pr.success then (σ, .error (.buildFailed pr.output), [])
  else
    match ctx.runStart spec with
    | .error e => (σ, .error e, [])
    | .ok pid =>
      (σ.insertProc spec.id (Supervisor.startedProc ctx spec pid), .ok spec.id,
       Supervisor.startEvents spec)

/-- supervisor.rs Supervisor::stop: early return false when the entry is
    missing or not running; otherwise transition to Stopping and take the
    child; if a child was held, SIGTERM, await with the kill timeout
    (SIGKILL on expiry), then record Stopped; finally notify and run the
    on_stop hook. -/
def Supervisor.stop (ctx : SupCtx) (σ : SupState) (id : Nat) :
    SupState × Bool × List Event :=
  match σ.procs id with
  | none => (σ, false, [])
  | some proc =>
    if !proc.state.status.is_running then (σ, false, [])
    else
      let name := proc.spec.name
      let pid := proc.state.pid
      let hooks := proc.spec.hooks
      let child := proc.child
      let σ₁ := σ.updateProc id (fun p =>
        { p with state := { p.state with status := .stopping }, child := false })
      let (σ₂, evs₁) :=
        if child then
          let termEvs := match pid with
            | some p => [Event.sigterm p]
            | none => []
          let (exitCode, killEvs) :=
            match ctx.wait id with
            | .exited code => (code, ([] : List Event))
            | .errWait => (none, [])
            | .timedOut => (none, [Event.sigkill])
          let σ₂ := σ₁.updateProc id (fun p =>
            { p with
              state := { p.state with
                last_exit_code := exitCode, status := .stopped, pid := none }
              started_at := none })
          (σ₂, termEvs ++ killEvs)
        else (σ₁, [])
      let exitCode := (σ₂.procs id).bind (fun p => p.state.last_exit_code)
      let evs₂ := [Event.notifyStopped name id exitCode] ++
        (if hooks.on_stop.isSome then [Event.hookRun .stop id name] else [])
      (σ₂, true, evs₁ ++ evs₂)

/-- supervisor.rs Supervisor::delete: stop, remove from the process map,
    delete the registry row. -/
def Supervisor.delete (ctx : SupCtx) (σ : SupState) (id : Nat) :
    SupState × Bool × List Event :=
  let (σ₁, _, evs) := Supervisor.stop ctx σ id
  let σ₂ := (σ₁.removeProc id)
  ({ σ₂ with db := σ₂.db.deleteRow id }, true, evs)

/-- Fold of Supervisor::stop over a list of ids (cluster cleanup in
    start_cluster). -/
def Supervisor.stopAll (ctx : SupCtx) (σ : SupState) (ids : List Nat) : SupState × List Event :=
  ids.foldl (fun acc id =>
    let (σ₁, _, evs) := Supervisor.stop ctx acc.1 id
    (σ₁, acc.2 ++ evs)) (σ, [])

/-- The instance loop of supervisor.rs Supervisor::start_cluster: for each
    index compute the port, derive the instance spec, start it; on failure
    stop every instance started so far and return the error. -/
def Supervisor.startInstances (ctx : SupCtx) (spec : AppSpec) :
    SupState → List Nat → List Nat → SupState × Except Error (List Nat) × List Event
  | σ, [], acc => (σ, .ok acc, [])
  | σ, i :: rest, acc =>
    let port := Supervisor.calculate_instance_port spec i
    let inst := spec.for_instance i port
    match Supervisor.start_single ctx σ inst with
    | (σ₁, .ok id, evs) =>
      let (σ₂, r, evs₂) := Supervisor.startInstances ctx spec σ₁ rest (acc ++ [id])
      (σ₂, r, evs ++ evs₂)
    | (σ₁, .error e, evs) =>
      let (σ₂, evs₂) := Supervisor.stopAll ctx σ₁ acc
      (σ₂, .error e, evs ++ evs₂)

/-- supervisor.rs Supervisor::start_cluster: start every instance, then insert
    the parent aggregate (no child handle, status Running, the started child
    ids in order) under the original id. -/
def Supervisor.start_cluster (ctx : SupCtx) (σ : SupState) (spec : AppSpec) :
    SupState × Except Error Nat × List Event :=
  match Supervisor.startInstances ctx spec σ (List.range spec.instances) [] with
  | (σ₁, .error e, evs) => (σ₁, .error e, evs)
  | (σ₁, .ok ids, evs) =>
    let parent : SupervisedProcess :=
      { spec := spec
        state :=
          { app_id := spec.id
            status := .running
            started_at := some ctx.now
            healthy := true }
        child := false
        started_at := some ctx.now
        cluster_instance_ids := ids }
    (σ₁.insertProc spec.id parent, .ok spec.id, evs)

/-- supervisor.rs Supervisor::start: reuse the id of an existing non-running
    record by name (AppAlreadyExists when it is running), otherwise insert a
    new row; then dispatch to the cluster path when instances exceed one and
    no instance_id is set, else to the single path. -/
def Supervisor.start (ctx : SupCtx) (σ : SupState) (spec₀ : AppSpec) :
    SupState × Except Error Nat × List Event :=
  let resolved : Except Error (SupState × AppSpec) :=
    match σ.db.get_by_name spec₀.name with
    | some existing =>
      let isRunning := match σ.procs existing.id with
        | some p => p.state.status.is_running
        | none => false
      if isRunning then .error (.appAlreadyExists spec₀.name)
      else .ok (σ, { spec₀ with id := existing.id })
    | none =>
      let (id, db) := σ.db.insert spec₀
      .ok ({ σ with db := db }, { spec₀ with id := id })
  match resolved with
  | .error e => (σ, .error e, [])
  | .ok (σ₁, spec) =>
    if spec.instances > 1 && spec.instance_id.isNone then
      Supervisor.start_cluster ctx σ₁ spec
    else
      Supervisor.start_single ctx σ₁ spec

/-- supervisor.rs Supervisor::wait_for_healthy: false when the app is gone,
    true immediately when no health check is configured; otherwise the
    500 ms poll loop is abstracted by the healthBecomes oracle, recording the
    last observed health on the state. -/
def Supervisor.wait_for_healthy (ctx : SupCtx) (σ : SupState) (app_id : Nat) :
    SupState × Bool :=
  match σ.procs app_id with
  | none => (σ, false)
  | some p =>
    match p.spec.health_check with
    | none => (σ, true)
    | some _ =>
      let ok := ctx.healthBecomes app_id
      (σ.updateProc app_id (fun q => { q with state := { q.state with healthy := ok } }), ok)

/-- supervisor.rs Supervisor::reload_single: start a clone named
    name-reload with id 0; when a health check is configured and the new
    instance does not become healthy, stop and delete it and return
    HealthCheckFailed; otherwise stop the old instance, rename the new map
    entry back to the original name, and delete the old registry row. -/
def Supervisor.reload_single (ctx : SupCtx) (σ : SupState) (old_id : Nat) (spec : AppSpec) :
    SupState × Except Error Bool × List Event :=
  let new_spec := { spec with name := spec.name ++ "-reload", id := 0 }
  match Supervisor.start_single ctx σ new_spec with
  | (σ₁, .error e, evs) => (σ₁, .error e, evs)
  | (σ₁, .ok new_id, evs) =>
    let healthy : (SupState × List Event) ⊕ SupState :=
      if spec.health_check.isSome then
        let (σ₂, ok) := Supervisor.wait_for_healthy ctx σ₁ new_id
        if !ok then
          let (σ₃, _, evs₂) := Supervisor.stop ctx σ₂ new_id
          let (σ₄, _, evs₃) := Supervisor.delete ctx σ₃ new_id
          .inl (σ₄, evs₂ ++ evs₃)
        else .inr σ₂
      else .inr σ₁
    match healthy with
    | .inl (σ₄, evs₂) => (σ₄, .error .healthCheckFailed, evs ++ evs₂)
    | .inr σ₂ =>
      let (σ₃, _, evs₂) := Supervisor.stop ctx σ₂ old_id
      let σ₄ := σ₃.updateProc new_id (fun p =>
        { p with spec := { p.spec with name := spec.name } })
      ({ σ₄ with db := σ₄.db.deleteRow old_id }, .ok true, evs ++ evs₂)

/-- supervisor.rs Supervisor::status, restricted to one app: an app with a
    registry row is reported with its process-map status, defaulting to
    Stopped (RunState::new) when no map entry exists; an app without a row is
    not reported. -/
def Supervisor.reportedStatus (σ : SupState) (id : Nat) : Option AppStatus :=
  (σ.db.get_by_id id).map (fun _ =>
    match σ.procs id with
    | some p => p.state.status
    | none => .stopped)

/-- supervisor.rs Supervisor::resolve_selector. -/
def Supervisor.resolve_selector (σ : SupState) (sel : Selector) : Except Error (List Nat) :=
  match sel with
  | .all => .ok (σ.db.rows.map (fun r => r.1))
  | .byId id =>
    if (σ.db.get_by_id id).isSome then .ok [id]
    else .error (.appNotFound (ToString.toString id))
  | .byName name =>
    match σ.db.get_by_name name with
    | some app => .ok [app.id]
    | none => .error (.appNotFound name)
  | .byTag tag =>
    let matching := (σ.db.rows.filter (fun r => r.2.tags.contains tag)).map (fun r => r.1)
    if matching.isEmpty then .error (.appNotFound ("@" ++ tag))
    else .ok matching

/-- IPC responses relevant to the stop handler (oxidepm-ipc protocol). -/
inductive Response where
  | stopped (count : Nat)
  | error (message : String)
  deriving DecidableEq, Repr

/-- handlers.rs RequestHandler::stop: resolve the selector, stop each id,
    counting the calls that returned true. -/
def RequestHandler.stop (ctx : SupCtx) (σ : SupState) (sel : Selector) :
    SupState × Response × List Event :=
  match Supervisor.resolve_selector σ sel with
  | .error e => (σ, .error e.message, [])
  | .ok ids =>
    let (σ₁, count, evs) := ids.foldl (fun acc id =>
      let (σ₂, ok, evs) := Supervisor.stop ctx acc.1 id
      (σ₂, acc.2.1 + (if ok then 1 else 0), acc.2.2 ++ evs)) (σ, 0, [])
    (σ₁, .stopped count, evs)

/-- Log rotation configuration (oxidepm-logs/src/rotation.rs). -/
structure RotationConfig where
  max_size_bytes : Nat
  max_files : Nat
  deriving DecidableEq, Repr

/-- Log writer state (oxidepm-logs/src/writer.rs, struct LogWriter): the live
    file size and, for each rotation index k of the path suffixed .k, whether
    that rotated file exists on disk. -/
structure LogWriter where
  config : RotationConfig
  current_size : Nat
  files : Nat → Bool

/-- One iteration of the rotation loop of writer.rs LogWriter::rotate for
    index i: when .i exists, remove it if i + 1 reaches max_files, else
    rename it to .(i+1). -/
def applyRot (maxFiles : Nat) (fs : Nat → Bool) (i : Nat) : Nat → Bool :=
  if fs i then
    if maxFiles ≤ i + 1 then fun k => if k = i then false else fs k
    else fun k => if k = i + 1 then true else if k = i then false else fs k
  else fs

/-- The descending loop for i in (1..max_files).rev() of LogWriter::rotate:
    process index i, then i-1, down to 1. -/
def rotDown (maxFiles : Nat) : (Nat → Bool) → Nat → Nat → Bool
  | fs, 0 => fs
  | fs, j + 1 => rotDown maxFiles (applyRot maxFiles fs (j + 1)) j

/-- writer.rs LogWriter::rotate: shift the rotated files, rename the live
    file (which exists) to .1, open a fresh live file of size 0. -/
def LogWriter.rotate (w : LogWriter) : LogWriter :=
  let fs := rotDown w.config.max_files w.files (w.config.max_files - 1)
  { w with files := fun k => if k = 1 then true else fs k, current_size := 0 }

/-- writer.rs LogWriter::write_line: the formatted line is
    "[YYYY-mm-dd HH:MM:SS] " ++ line ++ newline, i.e. 23 bytes of framing
    around the line; append, then rotate when the size reaches
    max_size_bytes. -/
def LogWriter.write_line (w : LogWriter) (line : String) : LogWriter :=
  let w₁ := { w with current_size := w.current_size + (line.length + 23) }
  if w₁.config.max_size_bytes ≤ w₁.current_size then w₁.rotate else w₁

/-- Sequence of write_line calls. -/
def LogWriter.writeAll (w : LogWriter) (lines : List String) : LogWriter :=
  lines.foldl LogWriter.write_line w

/-- A freshly created log writer over an empty log file with no rotated
    files (writer.rs LogWriter::new on a new path). -/
def freshWriter (config : RotationConfig) : LogWriter :=
  { config := config, current_size := 0, files := fun _ => false }

/-- The rotated-file layout with suffixes .1 through .m present. -/
def prefixSet (m : Nat) : Nat → Bool :=
  fun k => decide (1 ≤ k ∧ k ≤ m)

/-- Maximum IPC message size, 10 MiB (oxidepm-ipc/src/server.rs). -/
def MAX_MESSAGE_SIZE : Nat := 10 * 1024 * 1024

/-- read_line semantics: consume bytes up to and including the first
    newline, or everything when no newline occurs. -/
def takeLine : List Char → List Char
  | [] => []
  | c :: rest => if c = '\n' then [c] else c :: takeLine rest

/-- ASCII whitespace as trimmed by str::trim on the request line. -/
def isWs (c : Char) : Bool :=
  c = ' ' || c = '\t' || c = '\n' || c = '\r'

/-- str::trim on the byte-list model. -/
def trimChars (l : List Char) : List Char :=
  ((l.dropWhile isWs).reverse.dropWhile isWs).reverse

/-- server.rs IpcConnection::read_request: a BufReader over the stream capped
    by take(MAX_MESSAGE_SIZE), read_line, Ok(None) on a closed connection,
    then the serde_json request parser (an external collaborator, passed as a
    function) on the trimmed line; a parse failure is an IpcError. -/
def read_request {Req : Type} (parse : String → Option Req) (input : List Char) :
    Except Error (Option Req) :=
  let line := takeLine (input.take MAX_MESSAGE_SIZE)
  if line.length = 0 then .ok none
  else
    match parse (String.mk (trimChars line)) with
    | some req => .ok (some req)
    | none => .error (.ipcError "Invalid request")

/-- Model of filesystem path join semantics for PathBuf::join with a relative
    file name: a path is a list of components, and the joined name
    contributes one component per slash-separated segment. -/
def splitSlash : List Char → List (List Char)
  | [] => [[]]
  | c :: rest =>
    let r := splitSlash rest
    if c = '/' then [] :: r
    else
      match r with
      | [] => [[c]]
      | h :: t => (c :: h) :: t

/-- PathBuf::join of a directory and a relative file name, on the component
    model. -/
def joinPath (dir : List (List Char)) (file : List Char) : List (List Char) :=
  dir ++ splitSlash file

/-- Path::parent on the component model. -/
def parentOf (p : List (List Char)) : List (List Char) :=
  p.dropLast

/-! ### Theorems -/

/-- C10, counterexample: the claim classifies ById exactly as the pure decimal
    strings, but Selector::parse accepts a leading plus sign (so the
    non-decimal "+7" yields ById 7, not ByName) and rejects decimals that
    overflow u32 (so the pure decimal "4294967296" yields ByName, not ById). -/
theorem selector_parse_decimal_counterexample :
    Selector.parse "+7" = Selector.byId 7 ∧
    Selector.parse "4294967296" = Selector.byName "4294967296" := by
  constructor <;> decide

/-- C10 (amended): Selector::parse yields All when s equals "all"
    ASCII-case-insensitively; ByTag of the remainder when s starts with an at
    sign; ById(n) when s parses as a u32 (an optional leading plus sign, then
    ASCII digits, value at most 4294967295); ByName(s) otherwise — with
    precedence in that order; and parse followed by Display round-trips on
    "all", "123", "@web" and "my-app". -/
theorem selector_parse_characterization :
    (∀ s : String, eqIgnoreAsciiCase s "all" = true → Selector.parse s = Selector.all) ∧
    (∀ (s : String) (t : List Char), eqIgnoreAsciiCase s "all" = false →
      s.data = '@' :: t → Selector.parse s = Selector.byTag (String.mk t)) ∧
    (∀ (s : String) (n : Nat), eqIgnoreAsciiCase s "all" = false →
      (∀ t, s.data ≠ '@' :: t) → parseU32 s = some n → Selector.parse s = Selector.byId n) ∧
    (∀ s : String, eqIgnoreAsciiCase s "all" = false →
      (∀ t, s.data ≠ '@' :: t) → parseU32 s = none → Selector.parse s = Selector.byName s) ∧
    ((Selector.parse "all").toString = "all" ∧
     (Selector.parse "123").toString = "123" ∧
     (Selector.parse "@web").toString = "@web" ∧
     (Selector.parse "my-app").toString = "my-app") := by
  refine ⟨?_, ?_, ?_, ?_, by decide⟩
  · intro s h
    simp [Selector.parse, h]
  · intro s t h ht
    simp [Selector.parse, h, ht]
  · intro s n h ht hp
    simp only [Selector.parse, h, Bool.false_eq_true, if_false]
    match hd : s.data with
    | [] => simp [hp]
    | c :: cs =>
      have hc : c ≠ '@' := by
        intro rfl_c
        exact ht cs (by rw [hd, rfl_c])
      simp [hc, hp]
  · intro s h ht hp
    simp only [Selector.parse, h, Bool.false_eq_true, if_false]
    match hd : s.data with
    | [] => simp [hp]
    | c :: cs =>
      have hc : c ≠ '@' := by
        intro rfl_c
        exact ht cs (by rw [hd, rfl_c])
      simp [hc, hp]

/-- C10, witness: the characterization applied at "ALL" and "+99". -/
theorem selector_parse_characterization_witness :
    Selector.parse "ALL" = Selector.all ∧ Selector.parse "+99" = Selector.byId 99 := by
  have h := selector_parse_characterization
  refine ⟨h.1 "ALL" (by decide), h.2.2.1 "+99" 99 (by decide) ?_ (by decide)⟩
  intro t ht
  simp at ht

/-- A slash-free character list yields a single path component. -/
theorem splitSlash_no_sep (l : List Char) (h : ∀ c ∈ l, c ≠ '/') :
    splitSlash l = [l] := by
  induction l with
  | nil => rfl
  | cons c rest ih =>
    have hc : c ≠ '/' := h c (List.mem_cons_self c rest)
    have hrest : splitSlash rest = [rest] := ih (fun x hx => h x (List.mem_cons_of_mem c hx))
    simp [splitSlash, hc, hrest]

/-- C8: validate_app_name accepts exactly the non-empty strings of ASCII
    letters, digits, underscores and hyphens; consequently an accepted name,
    used verbatim as the log filename prefix name-out.log, contributes a
    single path component (never a ".." component), so the joined path's
    parent is the logs directory itself. -/
theorem validate_app_name_path_safe :
    (∀ s : String, validate_app_name s = true ↔
      (s.data ≠ [] ∧ ∀ c ∈ s.data, (c.isAlpha || c.isDigit || c = '_' || c = '-') = true)) ∧
    (∀ (s : String) (logsDir : List (List Char)), validate_app_name s = true →
      splitSlash (s.data ++ "-out.log".data) = [s.data ++ "-out.log".data] ∧
      s.data ++ "-out.log".data ≠ [ '.', '.' ] ∧
      parentOf (joinPath logsDir (s.data ++ "-out.log".data)) = logsDir) := by
  have hiff : ∀ s : String, validate_app_name s = true ↔
      (s.data ≠ [] ∧ ∀ c ∈ s.data, (c.isAlpha || c.isDigit || c = '_' || c = '-') = true) := by
    intro s
    simp [validate_app_name, isNameChar, List.all_eq_true]
  refine ⟨hiff, ?_⟩
  intro s logsDir hv
  obtain ⟨hne, hchars⟩ := (hiff s).mp hv
  have hnosep : ∀ c ∈ s.data ++ "-out.log".data, c ≠ '/' := by
    intro c hc
    rcases List.mem_append.mp hc with hc₁ | hc₂
    · have := hchars c hc₁
      intro hslash
      subst hslash
      simp at this
    · intro hslash
      subst hslash
      simp at hc₂
  have hsplit := splitSlash_no_sep (s.data ++ "-out.log".data) hnosep
  refine ⟨hsplit, ?_, ?_⟩
  · intro hdots
    have hlen := congrArg List.length hdots
    simp at hlen
  · simp [joinPath, parentOf, hsplit]

/-- C8, witness: the theorem applied at the accepted name "my-app" under the
    logs directory. -/
theorem validate_app_name_path_safe_witness :
    validate_app_name "my-app" = true ∧
    parentOf (joinPath [ "logs".data ] ("my-app".data ++ "-out.log".data)) = [ "logs".data ] := by
  have h := validate_app_name_path_safe
  exact ⟨by decide, (h.2 "my-app" [ "logs".data ] (by decide)).2.2⟩

/-- Looking up a key just inserted into the env model returns its value. -/
theorem envGet_envInsert (env : List (String × String)) (k v : String) :
    envGet (envInsert env k v) k = some v := by
  induction env with
  | nil => simp [envInsert, envGet]
  | cons p rest ih =>
    by_cases hk : p.1 = k
    · simp [envInsert, hk, envGet]
    · simp only [envInsert]
      rw [if_neg hk]
      simpa [envGet, List.find?, hk] using ih

/-- The single-instance spec used by the cluster start for child i, as built
    by startInstances: for_instance applied to calculate_instance_port. -/
def clusterChildSpec (spec : AppSpec) (i : Nat) : AppSpec :=
  spec.for_instance i (Supervisor.calculate_instance_port spec i)

/-- C5: for child i of a cluster start, the instance spec has instance_id i
    and name parent-i; its port is range-start + i when a port_range is set
    and range-start + i fits in the range, else base port + i when a base
    port is set, else none; and whenever a port was computed, the instance
    env maps PORT to it and the instance port field equals it.  The side
    conditions keep the u16 additions inside u16 range. -/
theorem cluster_instance_spec_correct
    (spec : AppSpec) (n i : Nat) (hn : spec.instances = n) (hin : i < n)
    (hrange : ∀ rs re, spec.port_range = some (rs, re) → rs + i < 65536)
    (hbase : ∀ b, spec.port = some b → b + i < 65536) :
    (clusterChildSpec spec i).instance_id = some i ∧
    (clusterChildSpec spec i).name = spec.name ++ "-" ++ toString i ∧
    Supervisor.calculate_instance_port spec i =
      (match spec.port_range with
       | some (rs, re) =>
         if rs + i ≤ re then some (rs + i)
         else (match spec.port with
               | some b => some (b + i)
               | none => none)
       | none =>
         match spec.port with
         | some b => some (b + i)
         | none => none) ∧
    (∀ p, Supervisor.calculate_instance_port spec i = some p →
      envGet (clusterChildSpec spec i).env "PORT" = some (toString p) ∧
      (clusterChildSpec spec i).port = some p) := by
  have hport : Supervisor.calculate_instance_port spec i =
      (match spec.port_range with
       | some (rs, re) =>
         if rs + i ≤ re then some (rs + i)
         else (match spec.port with
               | some b => some (b + i)
               | none => none)
       | none =>
         match spec.port with
         | some b => some (b + i)
         | none => none) := by
    unfold Supervisor.calculate_instance_port
    match hpr : spec.port_range with
    | some (rs, re) =>
      have hmod : (rs + i) % 65536 = rs + i := Nat.mod_eq_of_lt (hrange rs re hpr)
      match hp : spec.port with
      | some b =>
        have hmodb : (b + i) % 65536 = b + i := Nat.mod_eq_of_lt (hbase b hp)
        simp [hmod, hmodb]
      | none => simp [hmod]
    | none =>
      match hp : spec.port with
      | some b =>
        have hmodb : (b + i) % 65536 = b + i := Nat.mod_eq_of_lt (hbase b hp)
        simp [hmodb]
      | none => simp
  refine ⟨?_, ?_, hport, ?_⟩
  · unfold clusterChildSpec AppSpec.for_instance
    match Supervisor.calculate_instance_port spec i with
    | some p => simp
    | none => simp
  · unfold clusterChildSpec AppSpec.for_instance
    match Supervisor.calculate_instance_port spec i with
    | some p => simp
    | none => simp
  · intro p hp
    unfold clusterChildSpec AppSpec.for_instance
    rw [hp]
    exact ⟨envGet_envInsert _ _ _, rfl⟩

/-- Concrete three-instance cluster spec for the C5 witness. -/
def webClusterSpec : AppSpec :=
  { id := 1, name := "web", mode := .cmd, command := "./server", cwd := "/srv",
    instances := 3, port := some 8000, port_range := some (3000, 3002) }

/-- C5, witness: the theorem applied to a cluster of three with
    port_range 3000-3002 at child 2. -/
theorem cluster_instance_spec_correct_witness :
    (clusterChildSpec webClusterSpec 2).instance_id = some 2 ∧
    (clusterChildSpec webClusterSpec 2).name = "web-2" ∧
    Supervisor.calculate_instance_port webClusterSpec 2 = some 3002 ∧
    envGet (clusterChildSpec webClusterSpec 2).env "PORT" = some "3002" := by
  have h := cluster_instance_spec_correct webClusterSpec 3 2 rfl (by decide)
    (by intro rs re hr; simp [webClusterSpec] at hr; omega)
    (by intro b hb; simp [webClusterSpec] at hb; omega)
  have hp : Supervisor.calculate_instance_port webClusterSpec 2 = some 3002 := by decide
  exact ⟨h.1, h.2.1, hp, (h.2.2.2 3002 hp).1⟩

/-- C9: when the process-map entry of an app exists but is not in a running
    status, Supervisor::stop returns false before any mutation — no status
    transition, no signal, no hook — and the Stop request over that id
    responds with count 0 and leaves the state unchanged. -/
theorem stop_already_stopped_noop
    (ctx : SupCtx) (σ : SupState) (id : Nat) (proc : SupervisedProcess)
    (hproc : σ.procs id = some proc)
    (hns : proc.state.status.is_running = false)
    (hrow : (σ.db.get_by_id id).isSome = true) :
    Supervisor.stop ctx σ id = (σ, false, []) ∧
    RequestHandler.stop ctx σ (Selector.byId id) = (σ, Response.stopped 0, []) := by
  have hstop : Supervisor.stop ctx σ id = (σ, false, []) := by
    unfold Supervisor.stop
    rw [hproc]
    simp [hns]
  refine ⟨hstop, ?_⟩
  unfold RequestHandler.stop Supervisor.resolve_selector
  simp [hrow, hstop]

/-- Concrete state for the C9 witness: one stopped app with a registry row. -/
def stoppedProc : SupervisedProcess :=
  { spec := { id := 1, name := "api", mode := .cmd, command := "./api", cwd := "/srv" }
    state := { app_id := 1, status := .stopped }
    child := false }

/-- Concrete supervisor state holding only the stopped app. -/
def stoppedState : SupState :=
  { db := { rows := [(1, persistRow 1 stoppedProc.spec)], next_id := 2 }
    procs := fun k => if k = 1 then some stoppedProc else none }

/-- Oracle context used by concrete scenarios: prepare succeeds, the runner
    starts with pid 42, children exit cleanly with code 0, probes never
    become healthy. -/
def plainCtx : SupCtx :=
  { prepare := fun _ => { success := true, output := "" }
    runStart := fun _ => .ok 42
    wait := fun _ => .exited (some 0)
    healthBecomes := fun _ => false }

/-- C9, witness: stopping the stopped app changes nothing and counts zero. -/
theorem stop_already_stopped_noop_witness :
    Supervisor.stop plainCtx stoppedState 1 = (stoppedState, false, []) ∧
    RequestHandler.stop plainCtx stoppedState (Selector.byId 1) =
      (stoppedState, Response.stopped 0, []) :=
  stop_already_stopped_noop plainCtx stoppedState 1 stoppedProc rfl rfl rfl

/-- Oracle context whose runner prepare phase reports non-success. -/
def failPrepCtx : SupCtx :=
  { prepare := fun _ => { success := false, output := "boom" }
    runStart := fun _ => .ok 42
    wait := fun _ => .exited (some 0)
    healthBecomes := fun _ => false }

/-- An empty supervisor state: no registry rows, no processes. -/
def emptyState : SupState :=
  { db := { rows := [], next_id := 1 }, procs := fun _ => none }

/-- A fresh single-instance spec, before registry insertion. -/
def apiSpec : AppSpec :=
  { id := 0, name := "api", mode := .cargo, command := "api", cwd := "/srv" }

/-- C3, counterexample: starting a fresh app whose prepare step fails returns
    BuildFailed, but no Errored status is recorded anywhere — the app's
    reported status is the default Stopped, not Errored as the claim
    states. -/
theorem start_prepare_failure_counterexample :
    (Supervisor.start failPrepCtx emptyState apiSpec).2.1 =
      .error (.buildFailed "boom") ∧
    Supervisor.reportedStatus (Supervisor.start failPrepCtx emptyState apiSpec).1 1 =
      some .stopped ∧
    Supervisor.reportedStatus (Supervisor.start failPrepCtx emptyState apiSpec).1 1 ≠
      some .errored := by
  refine ⟨rfl, rfl, by decide⟩

/-- C3 (amended): when the runner prepare step reports non-success for a
    single-instance spec, start_single returns BuildFailed carrying the
    prepare output and leaves the supervisor state untouched: no process-map
    entry is created and no Errored status is recorded, so the app's
    reported status stays the default Stopped. -/
theorem start_single_prepare_failure
    (ctx : SupCtx) (σ : SupState) (spec : AppSpec)
    (hpr : (ctx.prepare spec).success = false)
    (hinst : spec.instance_id = none) :
    Supervisor.start_single ctx σ spec =
      (σ, .error (.buildFailed (ctx.prepare spec).output), []) ∧
    (σ.procs spec.id = none → (σ.db.get_by_id spec.id).isSome = true →
      Supervisor.reportedStatus (Supervisor.start_single ctx σ spec).1 spec.id =
        some .stopped) := by
  have hmain : Supervisor.start_single ctx σ spec =
      (σ, .error (.buildFailed (ctx.prepare spec).output), []) := by
    unfold Supervisor.start_single
    simp [hinst, hpr]
  refine ⟨hmain, ?_⟩
  intro hnone hrow
  rw [hmain]
  unfold Supervisor.reportedStatus
  rw [Option.isSome_iff_exists] at hrow
  obtain ⟨row, hrow⟩ := hrow
  simp [hrow, hnone]

/-- State for the C3 witness: the api app has a registry row (id 1) but no
    process-map entry. -/
def apiRegisteredState : SupState :=
  { db := { rows := [(1, persistRow 1 apiSpec)], next_id := 2 }
    procs := fun _ => none }

/-- C3, witness: the amended theorem applied to the registered api app under
    the failing-prepare oracle. -/
theorem start_single_prepare_failure_witness :
    Supervisor.start_single failPrepCtx apiRegisteredState { apiSpec with id := 1 } =
      (apiRegisteredState, .error (.buildFailed "boom"), []) ∧
    Supervisor.reportedStatus
      (Supervisor.start_single failPrepCtx apiRegisteredState { apiSpec with id := 1 }).1 1 =
      some .stopped := by
  have h := start_single_prepare_failure failPrepCtx apiRegisteredState
    { apiSpec with id := 1 } rfl rfl
  exact ⟨h.1, h.2 rfl rfl⟩

/-- C1 (code divergence): Supervisor::stop has no cluster handling.  For a
    cluster parent aggregate (non-empty cluster_instance_ids, no child
    handle, status Running), stopping the parent id returns true but touches
    no other map entry — every child keeps its previous state, so running
    children stay Running — and the parent itself is left in Stopping (the
    transition to Stopped happens only on the child-handle path), never
    reaching Stopped.  The claim (all children transition to Stopped in
    cluster-index order and the parent ends Stopped) fails. -/
theorem cluster_parent_stop_ignores_children
    (ctx : SupCtx) (σ : SupState) (parentId : Nat) (parent : SupervisedProcess)
    (hp : σ.procs parentId = some parent)
    (hchild : parent.child = false)
    (hrun : parent.state.status = .running)
    (hcl : parent.cluster_instance_ids ≠ []) :
    (Supervisor.stop ctx σ parentId).2.1 = true ∧
    ((Supervisor.stop ctx σ parentId).1.procs parentId).map (fun p => p.state.status) =
      some .stopping ∧
    (∀ c, c ≠ parentId → (Supervisor.stop ctx σ parentId).1.procs c = σ.procs c) := by
  have hcl₂ := hcl
  refine ⟨?_, ?_, ?_⟩
  · unfold Supervisor.stop
    rw [hp]
    simp [hrun, hchild, AppStatus.is_running]
  · unfold Supervisor.stop
    rw [hp]
    simp [hrun, hchild, AppStatus.is_running, SupState.updateProc, hp]
  · intro c hc
    unfold Supervisor.stop
    rw [hp]
    simp [hrun, hchild, AppStatus.is_running, SupState.updateProc, hc]

/-- The cluster parent aggregate of the C1 witness scenario: children are the
    map entries 1, 2, 3. -/
def clusterParentProc : SupervisedProcess :=
  { spec := { webClusterSpec with id := 10 }
    state := { app_id := 10, status := .running, healthy := true }
    child := false
    cluster_instance_ids := [1, 2, 3] }

/-- A running cluster child keyed at the given id for cluster index idx. -/
def clusterChildProcAt (id idx : Nat) : SupervisedProcess :=
  { spec := { webClusterSpec.for_instance idx (some (3000 + idx)) with id := id }
    state := { app_id := id, pid := some (100 + id), status := .running,
               healthy := true, port := some (3000 + idx), instance_id := some idx }
    child := true }

/-- Supervisor state of the C1 witness: the parent aggregate at 10 with three
    running children at 1, 2, 3. -/
def clusterState : SupState :=
  { db := { rows := [(10, persistRow 10 webClusterSpec)], next_id := 11 }
    procs := fun k =>
      if k = 10 then some clusterParentProc
      else if k = 1 then some (clusterChildProcAt 1 0)
      else if k = 2 then some (clusterChildProcAt 2 1)
      else if k = 3 then some (clusterChildProcAt 3 2)
      else none }

/-- C1, witness: stopping the parent of the three-child cluster leaves all
    three children exactly as they were (still Running) and the parent in
    Stopping. -/
theorem cluster_parent_stop_ignores_children_witness :
    (Supervisor.stop plainCtx clusterState 10).2.1 = true ∧
    ((Supervisor.stop plainCtx clusterState 10).1.procs 10).map (fun p => p.state.status) =
      some .stopping ∧
    (Supervisor.stop plainCtx clusterState 10).1.procs 1 = some (clusterChildProcAt 1 0) ∧
    (Supervisor.stop plainCtx clusterState 10).1.procs 2 = some (clusterChildProcAt 2 1) ∧
    (Supervisor.stop plainCtx clusterState 10).1.procs 3 = some (clusterChildProcAt 3 2) := by
  have h := cluster_parent_stop_ignores_children plainCtx clusterState 10
    clusterParentProc rfl rfl rfl (by decide)
  refine ⟨h.1, h.2.1, ?_, ?_, ?_⟩
  · rw [h.2.2 1 (by decide)]; rfl
  · rw [h.2.2 2 (by decide)]; rfl
  · rw [h.2.2 3 (by decide)]; rfl

/-- A running single-instance app (no cluster, no health check). -/
def webSpec : AppSpec :=
  { id := 1, name := "web", mode := .cmd, command := "./web", cwd := "/srv" }

/-- Its running supervised process. -/
def webProc : SupervisedProcess :=
  { spec := webSpec
    state := { app_id := 1, pid := some 7, status := .running, healthy := true }
    child := true }

/-- Supervisor state with the web app registered (row id 1) and running. -/
def webState : SupState :=
  { db := { rows := [(1, persistRow 1 webSpec)], next_id := 2 }
    procs := fun k => if k = 1 then some webProc else none }

/-- C4 (code divergence, evaluated at the failing input): a successful
    single-instance reload of the web app reports Ok, but afterwards the
    registry holds no apps row at all — reload_single deleted the old row and
    start_single never inserted the replacement (its instance_id is none) —
    and the surviving renamed process-map entry is keyed under id 0, the
    placeholder id of the temporary reload spec. -/
theorem reload_single_loses_registry_row :
    (Supervisor.reload_single plainCtx webState 1 webSpec).2.1 = .ok true ∧
    (Supervisor.reload_single plainCtx webState 1 webSpec).1.db.rows = [] ∧
    (Supervisor.reload_single plainCtx webState 1 webSpec).1.db.get_by_name "web" = none ∧
    ((Supervisor.reload_single plainCtx webState 1 webSpec).1.procs 0).map
      (fun p => p.spec.name) = some "web" ∧
    ((Supervisor.reload_single plainCtx webState 1 webSpec).1.procs 0).map
      (fun p => p.spec.id) = some 0 := by
  refine ⟨rfl, rfl, rfl, rfl, rfl⟩

/-- start_single on a non-instance spec whose prepare fails: BuildFailed and
    no state change. -/
theorem start_single_fail_eq (ctx : SupCtx) (σ : SupState) (spec : AppSpec)
    (hinst : spec.instance_id = none)
    (hpr : (ctx.prepare spec).success = false) :
    Supervisor.start_single ctx σ spec =
      (σ, .error (.buildFailed (ctx.prepare spec).output), []) := by
  unfold Supervisor.start_single
  simp [hinst, hpr]

/-- start_single on a non-instance spec whose prepare succeeds but whose
    runner start errors: the error propagates and the state is unchanged. -/
theorem start_single_spawn_fail_eq (ctx : SupCtx) (σ : SupState) (spec : AppSpec) (e : Error)
    (hinst : spec.instance_id = none)
    (hpr : (ctx.prepare spec).success = true)
    (hrs : ctx.runStart spec = .error e) :
    Supervisor.start_single ctx σ spec = (σ, .error e, []) := by
  unfold Supervisor.start_single
  simp [hinst, hpr, hrs]

/-- start_single on a non-instance spec along the success path: the started
    process is inserted under the spec's own id. -/
theorem start_single_ok_eq (ctx : SupCtx) (σ : SupState) (spec : AppSpec) (pid : Nat)
    (hinst : spec.instance_id = none)
    (hpr : (ctx.prepare spec).success = true)
    (hrs : ctx.runStart spec = .ok pid) :
    Supervisor.start_single ctx σ spec =
      (σ.insertProc spec.id (Supervisor.startedProc ctx spec pid), .ok spec.id,
       Supervisor.startEvents spec) := by
  unfold Supervisor.start_single
  simp [hinst, hpr, hrs]

/-- C2: for a running single-instance app with a configured health check,
    whenever reload_single returns HealthCheckFailed, the temporary
    name-reload instance (keyed under the placeholder id 0) has been stopped
    and deleted from the process map, the old instance's entry — and the
    whole registry — is exactly as before, and in particular the old
    instance is still Running; the old instance is only ever stopped on the
    healthy path.  The runner-start oracle is assumed never to fail with
    HealthCheckFailed itself (real runners fail with IO or
    ProcessStartFailed errors), and registry rows never use the placeholder
    id 0 (SQLite rowids start at 1). -/
theorem reload_failed_health_check_rolls_back
    (ctx : SupCtx) (σ : SupState) (old_id : Nat) (spec : AppSpec)
    (oldProc : SupervisedProcess)
    (hold : σ.procs old_id = some oldProc)
    (hrun : oldProc.state.status = .running)
    (hne : old_id ≠ 0)
    (hinst : spec.instance_id = none)
    (hhc : spec.health_check.isSome = true)
    (hrows : ∀ r ∈ σ.db.rows, r.1 ≠ 0)
    (hnoHcErr : ∀ sp, ctx.runStart sp ≠ .error .healthCheckFailed)
    (hres : (Supervisor.reload_single ctx σ old_id spec).2.1 = .error .healthCheckFailed) :
    (Supervisor.reload_single ctx σ old_id spec).1.procs 0 = none ∧
    (Supervisor.reload_single ctx σ old_id spec).1.procs old_id = some oldProc ∧
    oldProc.state.status = .running ∧
    (Supervisor.reload_single ctx σ old_id spec).1.db.rows = σ.db.rows := by
  obtain ⟨hc, hhceq⟩ := Option.isSome_iff_exists.mp hhc
  have hrows₂ : ∀ (a : Nat) (b : AppSpec), (a, b) ∈ σ.db.rows → ¬a = 0 :=
    fun a b hab => hrows (a, b) hab
  cases hpr : (ctx.prepare { spec with name := spec.name ++ "-reload", id := 0 }).success with
  | false =>
    exfalso
    have hcomp : Supervisor.reload_single ctx σ old_id spec =
        (σ, .error (.buildFailed
          (ctx.prepare { spec with name := spec.name ++ "-reload", id := 0 }).output), []) := by
      simp only [Supervisor.reload_single]
      rw [start_single_fail_eq ctx σ
        { spec with name := spec.name ++ "-reload", id := 0 } hinst hpr]
    rw [hcomp] at hres
    simp at hres
  | true =>
    cases hrs2 : ctx.runStart { spec with name := spec.name ++ "-reload", id := 0 } with
    | error e =>
      exfalso
      have hcomp : Supervisor.reload_single ctx σ old_id spec = (σ, .error e, []) := by
        simp only [Supervisor.reload_single]
        rw [start_single_spawn_fail_eq ctx σ
          { spec with name := spec.name ++ "-reload", id := 0 } e hinst hpr hrs2]
      rw [hcomp] at hres
      simp at hres
      exact hnoHcErr _ (by rw [hrs2, hres])
    | ok pid =>
      have hstart := start_single_ok_eq ctx σ
        { spec with name := spec.name ++ "-reload", id := 0 } pid hinst hpr hrs2
      cases hhb : ctx.healthBecomes 0 with
      | true =>
        exfalso
        have hcomp : (Supervisor.reload_single ctx σ old_id spec).2.1 = .ok true := by
          simp only [Supervisor.reload_single]
          rw [hstart]
          simp [Supervisor.wait_for_healthy, SupState.insertProc, SupState.updateProc,
            Supervisor.startedProc, hhceq, hhb, hhc]
        rw [hcomp] at hres
        simp at hres
      | false =>
        cases hw : ctx.wait 0 with
        | exited code =>
          refine ⟨?_, ?_, hrun, ?_⟩ <;>
            (simp only [Supervisor.reload_single]
             rw [hstart]
             simp [Supervisor.wait_for_healthy, Supervisor.stop, Supervisor.delete,
               SupState.insertProc, SupState.updateProc, SupState.removeProc,
               Supervisor.startedProc, AppStatus.is_running, Db.deleteRow,
               hhceq, hhb, hne, hold, hw]) <;>
            exact hrows₂
        | errWait =>
          refine ⟨?_, ?_, hrun, ?_⟩ <;>
            (simp only [Supervisor.reload_single]
             rw [hstart]
             simp [Supervisor.wait_for_healthy, Supervisor.stop, Supervisor.delete,
               SupState.insertProc, SupState.updateProc, SupState.removeProc,
               Supervisor.startedProc, AppStatus.is_running, Db.deleteRow,
               hhceq, hhb, hne, hold, hw]) <;>
            exact hrows₂
        | timedOut =>
          refine ⟨?_, ?_, hrun, ?_⟩ <;>
            (simp only [Supervisor.reload_single]
             rw [hstart]
             simp [Supervisor.wait_for_healthy, Supervisor.stop, Supervisor.delete,
               SupState.insertProc, SupState.updateProc, SupState.removeProc,
               Supervisor.startedProc, AppStatus.is_running, Db.deleteRow,
               hhceq, hhb, hne, hold, hw]) <;>
            exact hrows₂

/-- The web app with a configured health check. -/
def hcWebSpec : AppSpec := { webSpec with health_check := some {} }

/-- Its running supervised process. -/
def hcWebProc : SupervisedProcess :=
  { spec := hcWebSpec
    state := { app_id := 1, pid := some 7, status := .running, healthy := true }
    child := true
    health_monitor := true }

/-- Supervisor state with the health-checked web app registered and running. -/
def hcWebState : SupState :=
  { db := { rows := [(1, persistRow 1 hcWebSpec)], next_id := 2 }
    procs := fun k => if k = 1 then some hcWebProc else none }

/-- C2, witness: under the never-healthy probe oracle, reloading the
    health-checked web app returns HealthCheckFailed, the temporary instance
    is gone from the map, and the old instance and the registry are exactly
    as before. -/
theorem reload_failed_health_check_rolls_back_witness :
    (Supervisor.reload_single plainCtx hcWebState 1 hcWebSpec).2.1 =
      .error .healthCheckFailed ∧
    (Supervisor.reload_single plainCtx hcWebState 1 hcWebSpec).1.procs 0 = none ∧
    (Supervisor.reload_single plainCtx hcWebState 1 hcWebSpec).1.procs 1 = some hcWebProc ∧
    (Supervisor.reload_single plainCtx hcWebState 1 hcWebSpec).1.db.rows =
      hcWebState.db.rows := by
  have hres : (Supervisor.reload_single plainCtx hcWebState 1 hcWebSpec).2.1 =
      .error .healthCheckFailed := by rfl
  have h := reload_failed_health_check_rolls_back plainCtx hcWebState 1 hcWebSpec hcWebProc
    rfl rfl (by decide) rfl rfl (by decide)
    (by intro sp hsp; simp [plainCtx] at hsp) hres
  exact ⟨hres, h.1, h.2.1, h.2.2.2⟩

/-- Loop invariant of the rotation loop: before processing index j (counting
    down), starting from rotated files .1 .. .m, the files below j are still
    in place and the files already processed sit one slot higher, capped at
    max_files - 1 (the slot at max_files - 1 was removed, none is ever
    created at max_files). -/
def rotInv (M m j : Nat) : Nat → Bool :=
  fun k => decide ((1 ≤ k ∧ k ≤ min j m) ∨ (j + 2 ≤ k ∧ k ≤ min (m + 1) (M - 1)))

/-- One loop iteration takes the invariant at j to the invariant at j - 1. -/
theorem applyRot_rotInv (M m j : Nat) (h1 : 1 ≤ j) (hj : j ≤ M - 1) (hm : m ≤ M - 1) :
    applyRot M (rotInv M m j) j = rotInv M m (j - 1) := by
  have hfsj : rotInv M m j j = decide (j ≤ m) := by
    simp only [rotInv]
    exact decide_eq_decide.mpr (by omega)
  funext k
  simp only [applyRot]
  by_cases hjm : j ≤ m
  · have hcond : rotInv M m j j = true := by rw [hfsj]; exact decide_eq_true hjm
    rw [if_pos hcond]
    by_cases hMj : M ≤ j + 1
    · rw [if_pos hMj]
      by_cases hkj : k = j
      · subst hkj
        rw [if_pos rfl]
        simp only [rotInv]
        symm
        rw [decide_eq_false_iff_not]
        omega
      · rw [if_neg hkj]
        simp only [rotInv]
        exact decide_eq_decide.mpr (by omega)
    · rw [if_neg hMj]
      by_cases hkj1 : k = j + 1
      · subst hkj1
        rw [if_pos rfl]
        simp only [rotInv]
        symm
        rw [decide_eq_true_eq]
        omega
      · rw [if_neg hkj1]
        by_cases hkj : k = j
        · subst hkj
          rw [if_pos rfl]
          simp only [rotInv]
          symm
          rw [decide_eq_false_iff_not]
          omega
        · rw [if_neg hkj]
          simp only [rotInv]
          exact decide_eq_decide.mpr (by omega)
  · have hcond : ¬ rotInv M m j j = true := by
      rw [hfsj]
      simp only [decide_eq_true_eq]
      exact hjm
    rw [if_neg hcond]
    simp only [rotInv]
    exact decide_eq_decide.mpr (by omega)

/-- Running the loop from index j down preserves the invariant to 0. -/
theorem rotDown_rotInv (M m : Nat) (hm : m ≤ M - 1) :
    ∀ j, j ≤ M - 1 → rotDown M (rotInv M m j) j = rotInv M m 0 := by
  intro j
  induction j with
  | zero => intro _; rfl
  | succ i ih =>
    intro hj
    show rotDown M (applyRot M (rotInv M m (i + 1)) (i + 1)) i = rotInv M m 0
    rw [applyRot_rotInv M m (i + 1) (by omega) hj hm]
    exact ih (by omega)

/-- The layout .1 .. .m is the invariant at the loop entry index. -/
theorem prefixSet_eq_rotInv (M m : Nat) (hm : m ≤ M - 1) :
    prefixSet m = rotInv M m (M - 1) := by
  funext k
  simp only [prefixSet, rotInv]
  exact decide_eq_decide.mpr (by omega)

/-- Rotating the layout .1 .. .m (m below max_files) yields the layout
    .1 .. min (m + 1) (max_files - 1): each .i moves to .(i+1) except that
    the slot at max_files - 1 is dropped, and the live file becomes .1. -/
theorem rotate_prefixSet (K M m s : Nat) (hm : m ≤ M - 1) (hM : 2 ≤ M) :
    LogWriter.rotate { config := ⟨K, M⟩, current_size := s, files := prefixSet m } =
      { config := ⟨K, M⟩, current_size := 0,
        files := prefixSet (min (m + 1) (M - 1)) } := by
  simp only [LogWriter.rotate]
  rw [LogWriter.mk.injEq]
  refine ⟨rfl, rfl, ?_⟩
  rw [prefixSet_eq_rotInv M m hm, rotDown_rotInv M m hm (M - 1) (le_refl _)]
  funext k
  by_cases hk : k = 1
  · subst hk
    rw [if_pos rfl]
    simp only [prefixSet]
    symm
    rw [decide_eq_true_eq]
    omega
  · rw [if_neg hk]
    simp only [rotInv, prefixSet]
    exact decide_eq_decide.mpr (by omega)

/-- Writing lines that each meet the rotation threshold advances the rotated
    layout by one slot per line, capped at max_files - 1, ending with an
    empty live file. -/
theorem writeAll_big_lines (K M : Nat) (hM : 2 ≤ M) :
    ∀ (lines : List String) (m : Nat), m ≤ M - 1 →
      (∀ l ∈ lines, K ≤ l.length + 23) →
      LogWriter.writeAll { config := ⟨K, M⟩, current_size := 0, files := prefixSet m } lines =
        { config := ⟨K, M⟩, current_size := 0,
          files := prefixSet (min (m + lines.length) (M - 1)) } := by
  intro lines
  induction lines with
  | nil =>
    intro m hm _
    simp only [LogWriter.writeAll, List.foldl_nil, List.length_nil]
    rw [LogWriter.mk.injEq]
    refine ⟨rfl, rfl, ?_⟩
    funext k
    simp only [prefixSet]
    exact decide_eq_decide.mpr (by omega)
  | cons l ls ih =>
    intro m hm hbig
    have hstep : LogWriter.write_line
        { config := ⟨K, M⟩, current_size := 0, files := prefixSet m } l =
        { config := ⟨K, M⟩, current_size := 0,
          files := prefixSet (min (m + 1) (M - 1)) } := by
      simp only [LogWriter.write_line]
      rw [if_pos (by simpa using hbig l (List.mem_cons_self l ls))]
      exact rotate_prefixSet K M m (0 + (l.length + 23)) hm hM
    simp only [LogWriter.writeAll, List.foldl_cons] at *
    rw [hstep, ih (min (m + 1) (M - 1)) (by omega)
      (fun x hx => hbig x (List.mem_cons_of_mem l hx))]
    rw [LogWriter.mk.injEq]
    refine ⟨rfl, rfl, ?_⟩
    funext k
    simp only [prefixSet, List.length_cons]
    exact decide_eq_decide.mpr (by omega)

/-- C6 (amended): with max_size_bytes K and max_files M (M at least 2),
    after ten appends that each reach the threshold (lines totalling 10*K
    raw bytes), the live file holds at most K bytes and the rotated files
    are exactly .1 .. min 10 (M - 1) — one fewer than the claimed
    min 10 M, because each rotation removes the file at index M - 1 and
    renames .i to .(i+1) only for i + 1 below M, so no .M is ever created;
    the live file always becomes .1. -/
theorem log_rotation_layout
    (K M : Nat) (lines : List String)
    (hM : 2 ≤ M)
    (hlen : lines.length = 10)
    (hbig : ∀ l ∈ lines, K ≤ l.length + 23)
    (htotal : (lines.map String.length).sum = 10 * K) :
    (LogWriter.writeAll (freshWriter ⟨K, M⟩) lines).current_size ≤ K ∧
    (LogWriter.writeAll (freshWriter ⟨K, M⟩) lines).files = prefixSet (min 10 (M - 1)) ∧
    (∀ m s, m ≤ M - 1 →
      LogWriter.rotate { config := ⟨K, M⟩, current_size := s, files := prefixSet m } =
        { config := ⟨K, M⟩, current_size := 0,
          files := prefixSet (min (m + 1) (M - 1)) }) := by
  have hfresh : freshWriter ⟨K, M⟩ =
      { config := ⟨K, M⟩, current_size := 0, files := prefixSet 0 } := by
    simp only [freshWriter]
    rw [LogWriter.mk.injEq]
    refine ⟨rfl, rfl, ?_⟩
    funext k
    simp only [prefixSet]
    symm
    rw [decide_eq_false_iff_not]
    omega
  have hall := writeAll_big_lines K M hM lines 0 (by omega) hbig
  rw [hfresh, hall, hlen]
  exact ⟨Nat.zero_le K, rfl, fun m s hm => rotate_prefixSet K M m s hm hM⟩

/-- C6, witness: the amended layout theorem applied at K = 100, M = 3 with
    ten 100-byte lines. -/
theorem log_rotation_layout_witness :
    (LogWriter.writeAll (freshWriter ⟨100, 3⟩)
      (List.replicate 10 (String.mk (List.replicate 100 'a')))).current_size ≤ 100 ∧
    (LogWriter.writeAll (freshWriter ⟨100, 3⟩)
      (List.replicate 10 (String.mk (List.replicate 100 'a')))).files =
      prefixSet (min 10 (3 - 1)) := by
  have h := log_rotation_layout 100 3
    (List.replicate 10 (String.mk (List.replicate 100 'a')))
    (by decide) (by simp)
    (by
      intro l hl
      rw [List.eq_of_mem_replicate hl]
      decide)
    (by decide)
  exact ⟨h.1, h.2.1⟩

set_option maxRecDepth 10000 in
/-- C6, counterexample: with K = 100 and max_files = 3, after ten appends of
    100-byte lines (10*K bytes in total, ten rotations), only the rotated
    files .1 and .2 exist — the claimed third rotated file .3 (min 10 3 = 3)
    does not: rotation removes index max_files - 1 = 2 before renaming and
    never creates .3. -/
theorem log_rotation_counterexample :
    ((freshWriter ⟨100, 3⟩).writeAll
      (List.replicate 10 (String.mk (List.replicate 100 'a')))).files 3 = false ∧
    ((freshWriter ⟨100, 3⟩).writeAll
      (List.replicate 10 (String.mk (List.replicate 100 'a')))).files 2 = true ∧
    ((freshWriter ⟨100, 3⟩).writeAll
      (List.replicate 10 (String.mk (List.replicate 100 'a')))).files 1 = true ∧
    ((freshWriter ⟨100, 3⟩).writeAll
      (List.replicate 10 (String.mk (List.replicate 100 'a')))).current_size = 0 :=
  ⟨rfl, rfl, rfl, rfl⟩

/-- read_line consumes a newline-free run unchanged. -/
theorem takeLine_replicate (n : Nat) (c : Char) (hc : c ≠ '\n') :
    takeLine (List.replicate n c) = List.replicate n c := by
  induction n with
  | zero => rfl
  | succ k ih =>
    rw [List.replicate_succ]
    simp only [takeLine, if_neg hc]
    rw [ih]

/-- read_line stops at the first newline, consuming it. -/
theorem takeLine_replicate_newline (n : Nat) (c : Char) (rest : List Char) (hc : c ≠ '\n') :
    takeLine (List.replicate n c ++ '\n' :: rest) = List.replicate n c ++ ['\n'] := by
  induction n with
  | zero => simp [takeLine]
  | succ k ih =>
    rw [List.replicate_succ, List.cons_append]
    simp only [takeLine, if_neg hc]
    rw [ih]
    simp [List.replicate_succ]

/-- read_line never yields more bytes than its input holds. -/
theorem takeLine_length_le (l : List Char) : (takeLine l).length ≤ l.length := by
  induction l with
  | nil => simp [takeLine]
  | cons c rest ih =>
    simp only [takeLine]
    by_cases hc : c = '\n'
    · simp [hc]
    · simp only [if_neg hc, List.length_cons]
      omega

/-- dropWhile leaves a run of non-whitespace characters in place. -/
theorem dropWhile_replicate (n : Nat) (c : Char) (hw : isWs c = false) :
    List.dropWhile isWs (List.replicate n c) = List.replicate n c := by
  cases n with
  | zero => rfl
  | succ k =>
    rw [List.replicate_succ, List.dropWhile_cons]
    simp [hw]

/-- Trimming a run of non-whitespace characters is the identity. -/
theorem trimChars_replicate (n : Nat) (c : Char) (hw : isWs c = false) :
    trimChars (List.replicate n c) = List.replicate n c := by
  unfold trimChars
  rw [dropWhile_replicate n c hw, List.reverse_replicate,
    dropWhile_replicate n c hw, List.reverse_replicate]

/-- Trimming a non-whitespace run followed by the line's newline drops
    exactly the newline. -/
theorem trimChars_replicate_newline (n : Nat) (c : Char) (hw : isWs c = false) :
    trimChars (List.replicate n c ++ ['\n']) = List.replicate n c := by
  cases n with
  | zero => rfl
  | succ k =>
    unfold trimChars
    rw [List.replicate_succ, List.cons_append, List.dropWhile_cons]
    simp only [hw, Bool.false_eq_true, if_false]
    rw [← List.cons_append, ← List.replicate_succ, List.reverse_append,
      List.reverse_replicate]
    show List.reverse (List.dropWhile isWs ('\n' :: List.replicate (k + 1) c)) =
      List.replicate (k + 1) c
    rw [List.dropWhile_cons]
    simp only [show isWs '\n' = true from rfl, if_true]
    rw [dropWhile_replicate (k + 1) c hw, List.reverse_replicate]

/-- C7: the server read is capped at 10 MiB per message.  A request line of
    exactly 10 MiB (newline included) is read in full: the parser receives
    the whole trimmed line and the request is processed.  A line of
    10 MiB + 1 bytes is truncated to its first 10 MiB bytes — the newline
    and the tail never reach the parser — so, as the truncated prefix is not
    a complete request for the parser, read_request fails with an IpcError.
    Independently of the input, the bytes buffered for a single message
    never exceed 10 MiB, so an oversize message cannot exhaust memory. -/
theorem ipc_read_cap (Req : Type) (parse : String → Option Req) (c : Char)
    (rest : List Char) (hc : c ≠ '\n') (hw : isWs c = false) :
    read_request parse (List.replicate (MAX_MESSAGE_SIZE - 1) c ++ '\n' :: rest) =
      (match parse (String.mk (List.replicate (MAX_MESSAGE_SIZE - 1) c)) with
       | some req => .ok (some req)
       | none => .error (.ipcError "Invalid request")) ∧
    (parse (String.mk (List.replicate MAX_MESSAGE_SIZE c)) = none →
      read_request parse (List.replicate MAX_MESSAGE_SIZE c ++ '\n' :: rest) =
        .error (.ipcError "Invalid request")) ∧
    (∀ input : List Char,
      (takeLine (input.take MAX_MESSAGE_SIZE)).length ≤ MAX_MESSAGE_SIZE) := by
  have hMpos : 1 ≤ MAX_MESSAGE_SIZE := by decide
  refine ⟨?_, ?_, ?_⟩
  · have hsplit : List.replicate (MAX_MESSAGE_SIZE - 1) c ++ '\n' :: rest =
        (List.replicate (MAX_MESSAGE_SIZE - 1) c ++ ['\n']) ++ rest := by
      simp
    have hlen : (List.replicate (MAX_MESSAGE_SIZE - 1) c ++ ['\n']).length =
        MAX_MESSAGE_SIZE := by
      simp
      omega
    have htake : (List.replicate (MAX_MESSAGE_SIZE - 1) c ++ '\n' :: rest).take
        MAX_MESSAGE_SIZE = List.replicate (MAX_MESSAGE_SIZE - 1) c ++ ['\n'] := by
      rw [hsplit]
      exact List.take_left' hlen
    simp only [read_request, htake,
      takeLine_replicate_newline (MAX_MESSAGE_SIZE - 1) c [] hc]
    rw [if_neg (by simp)]
    rw [trimChars_replicate_newline (MAX_MESSAGE_SIZE - 1) c hw]
  · intro hparse
    have hlen : (List.replicate MAX_MESSAGE_SIZE c).length = MAX_MESSAGE_SIZE := by
      simp
    have htake : (List.replicate MAX_MESSAGE_SIZE c ++ '\n' :: rest).take
        MAX_MESSAGE_SIZE = List.replicate MAX_MESSAGE_SIZE c :=
      List.take_left' hlen
    simp only [read_request, htake, takeLine_replicate MAX_MESSAGE_SIZE c hc]
    rw [if_neg (by simp; omega)]
    rw [trimChars_replicate MAX_MESSAGE_SIZE c hw, hparse]
  · intro input
    calc (takeLine (input.take MAX_MESSAGE_SIZE)).length
        ≤ (input.take MAX_MESSAGE_SIZE).length := takeLine_length_le _
      _ ≤ MAX_MESSAGE_SIZE := by
          rw [List.length_take]
          omega

/-- The request parser of the C7 witness: accepts exactly the string of
    10 MiB - 1 content bytes. -/
def parseFull (s : String) : Option Nat :=
  if s.length = MAX_MESSAGE_SIZE - 1 then some 1 else none

/-- C7, witness: under parseFull, the exactly-10 MiB line is accepted and
    processed, while the 10 MiB + 1 line is rejected with an IpcError. -/
theorem ipc_read_cap_witness :
    read_request parseFull (List.replicate (MAX_MESSAGE_SIZE - 1) 'a' ++ '\n' :: []) =
      .ok (some 1) ∧
    read_request parseFull (List.replicate MAX_MESSAGE_SIZE 'a' ++ '\n' :: []) =
      .error (.ipcError "Invalid request") := by
  have h := ipc_read_cap Nat parseFull 'a' [] (by decide) (by decide)
  constructor
  · rw [h.1]
    have hp : parseFull (String.mk (List.replicate (MAX_MESSAGE_SIZE - 1) 'a')) = some 1 := by
      unfold parseFull
      rw [if_pos]
      show (List.replicate (MAX_MESSAGE_SIZE - 1) 'a').length = MAX_MESSAGE_SIZE - 1
      simp
    rw [hp]
  · refine h.2.1 ?_
    unfold parseFull
    rw [if_neg]
    show ¬ (List.replicate MAX_MESSAGE_SIZE 'a').length = MAX_MESSAGE_SIZE - 1
    simp only [List.length_replicate]
    decide

end OxidePM
